import Mathlib

/-!
Verification model of git-perf: the measurement log encoding and parser, the
regression-audit pipeline, the dispersion estimators, and the bounded-retry
sync protocol.  Definitions are shallow embeddings of
`src/src/git_perf/git_perf.py` and `src/evaluate_dispersion_methods.py`;
every definition's doc comment names the source function and lines it models.
-/

namespace GitPerf

/-! ## IEEE double model

The audit's numeric path runs on `np.float64`.  We model the values that can
occur there exactly: not-a-number, the two infinities, and finite values
(finite doubles are rationals, and every arithmetic step the audit performs on
them is exact in our cases of interest, so we carry rationals).
-/

/-- A Python/numpy `float64` value as it occurs on the audit's numeric path. -/
inductive PyFloat where
  | nan : PyFloat
  | inf : PyFloat
  | ninf : PyFloat
  | fin : ℚ → PyFloat
deriving DecidableEq

/-- `np.isnan`. -/
def PyFloat.isnan : PyFloat → Bool
  | .nan => true
  | _ => false

/-- IEEE subtraction on the modelled values (nan propagates, `inf - inf = nan`). -/
def PyFloat.sub : PyFloat → PyFloat → PyFloat
  | .nan, _ => .nan
  | _, .nan => .nan
  | .inf, .inf => .nan
  | .inf, _ => .inf
  | .ninf, .ninf => .nan
  | .ninf, _ => .ninf
  | .fin _, .inf => .ninf
  | .fin _, .ninf => .inf
  | .fin a, .fin b => .fin (a - b)

/-- IEEE absolute value on the modelled values. -/
def PyFloat.abs : PyFloat → PyFloat
  | .nan => .nan
  | .inf => .inf
  | .ninf => .inf
  | .fin a => .fin |a|

/-- IEEE division on the modelled values: nan propagates, `0/0 = nan`,
`x/0 = ±inf` for finite `x ≠ 0`, `±inf/±inf = nan`, `x/±inf = 0`.
(Signed zero is not modelled; the audit never divides by a negative spread.) -/
def PyFloat.div : PyFloat → PyFloat → PyFloat
  | .nan, _ => .nan
  | _, .nan => .nan
  | .inf, .inf => .nan
  | .inf, .ninf => .nan
  | .ninf, .inf => .nan
  | .ninf, .ninf => .nan
  | .inf, .fin b => if b < 0 then .ninf else .inf
  | .ninf, .fin b => if b < 0 then .inf else .ninf
  | .fin _, .inf => .fin 0
  | .fin _, .ninf => .fin 0
  | .fin a, .fin b =>
    if b = 0 then
      if a = 0 then .nan else if 0 < a then .inf else .ninf
    else .fin (a / b)

/-- The largest finite IEEE double, `np.finfo(np.float64).max`
= (2 − 2⁻⁵²)·2¹⁰²³.  `np.nan_to_num` substitutes this value (not +inf)
for positive infinity by default. -/
def MAX_FLOAT : ℚ := 2 ^ 1024 - 2 ^ 971

/-- `np.nan_to_num` with default arguments: nan becomes 0, +inf becomes the
largest finite double, -inf its negation, finite values pass through. -/
def PyFloat.nanToNum : PyFloat → PyFloat
  | .nan => .fin 0
  | .inf => .fin MAX_FLOAT
  | .ninf => .fin (-MAX_FLOAT)
  | .fin a => .fin a

/-- IEEE `<=` comparison (any comparison with nan is false). -/
def PyFloat.le : PyFloat → PyFloat → Bool
  | .nan, _ => false
  | _, .nan => false
  | .ninf, _ => true
  | .fin _, .inf => true
  | .inf, .inf => true
  | .inf, _ => false
  | .fin _, .ninf => false
  | .fin a, .fin b => decide (a ≤ b)

/-- `git_perf.py` lines 517-519 (`audit`):
`z = np.nan_to_num(abs(head_mean - tail_mean) / tail_std)` — the deviation
score of the HEAD scalar against the baseline. -/
def auditZ (headMean tailMean tailStd : PyFloat) : PyFloat :=
  ((headMean.sub tailMean).abs.div tailStd).nanToNum

/-- C2: with a perfectly stable baseline (spread 0) the code scores an exact
match as 0, as the claim states; but a deviating HEAD scalar is scored as the
largest finite double (np.nan_to_num substitutes 1.7976931348623157e308 for
the positive infinity produced by the division), not positive infinity as the
claim and the code's own comment ("z should be positive infinity") state. -/
theorem auditZ_zero_spread_clamped :
    auditZ (.fin 5) (.fin 5) (.fin 0) = .fin 0 ∧
    auditZ (.fin 1) (.fin 0) (.fin 0) = .fin MAX_FLOAT ∧
    auditZ (.fin 1) (.fin 0) (.fin 0) ≠ PyFloat.inf := by
  refine ⟨?_, ?_, ?_⟩ <;>
    norm_num [auditZ, PyFloat.sub, PyFloat.abs, PyFloat.div, PyFloat.nanToNum]
  intro h
  cases h

/-! ## DataFrame model

The audit works on a pandas DataFrame whose rows are measurement records.
We model a row as its string-valued cells (commit, name, expanded key-value
columns, ...) plus the numeric `val` column, and a frame as its column list
plus its rows.  A missing cell is pandas `NaN`, modelled as `Option.none`.
-/

/-- One DataFrame row: the string-valued cells (a cell absent from a row is
pandas NaN) and the numeric `val` column. -/
structure Row where
  entries : List (String × String)
  val : ℚ
deriving DecidableEq

/-- Cell lookup; `none` models NaN. -/
def Row.get (r : Row) (k : String) : Option String :=
  (r.entries.find? (fun p => decide (p.1 = k))).map (fun p => p.2)

/-- A DataFrame: its column index and its rows. -/
structure DF where
  cols : List String
  rows : List Row
deriving DecidableEq

/-- `git_perf.py` lines 29-32: the `MissingValuePolicy` enum. -/
inductive MissingValuePolicy where
  | SILENT
  | WARN
  | FAIL
deriving DecidableEq

/-- A raised Python exception: `ValueError` (raised by `filter_df` itself) or
pandas `KeyError` (raised when indexing a DataFrame by an absent column). -/
inductive PyError where
  | valueError (key : String)
  | keyError (key : String)
deriving DecidableEq

/-- Decidable equality for fallible results, so that concrete runs of the
fallible operations can be checked by `decide`. -/
instance exceptDecEq {ε α : Type} [DecidableEq ε] [DecidableEq α] :
    DecidableEq (Except ε α) := fun a b =>
  match a, b with
  | .error e, .error f =>
    if h : e = f then isTrue (by rw [h]) else isFalse (by simp [h])
  | .error _, .ok _ => isFalse (by simp)
  | .ok _, .error _ => by exact isFalse (by simp)
  | .ok x, .ok y =>
    if h : x = y then isTrue (by rw [h]) else isFalse (by simp [h])

/-- `git_perf.py` lines 436-449, `filter_df(df, selector, missing)`: for each
`(key, value)` constraint, if `key` is not a column then SILENT skips the
constraint, FAIL raises `ValueError`, and WARN prints the warning and then
falls through to `df = df[df[key] == value]`, which raises a pandas
`KeyError` because the column does not exist (the fall-through is the
behaviour under scrutiny in claim C4).  If `key` is a column, rows whose cell
differs from `value` (including NaN cells) are dropped. -/
def filter_df (df : DF) (selector : List (String × String))
    (missing : MissingValuePolicy) : Except PyError DF :=
  match selector with
  | [] => .ok df
  | (key, value) :: rest =>
    if key ∈ df.cols then
      filter_df ⟨df.cols, df.rows.filter (fun r => decide (r.get key = some value))⟩
        rest missing
    else
      match missing with
      | .SILENT => filter_df df rest missing
      | .WARN => .error (.keyError key)
      | .FAIL => .error (.valueError key)

/-! ## Aggregation and summarize -/

/-- The aggregation functions the spec admits for `--aggregate-by`
(`fn ∈ {min, median, mean, max}`), as applied by
`df.groupby(group_by).val.agg(aggregate_by)`. -/
inductive AggFn where
  | amin
  | amax
  | amean
  | amedian
deriving DecidableEq

/-- Ascending sort of rational values (the order pandas and `statistics`
sort by before taking medians or minima). -/
def sortedQ (xs : List ℚ) : List ℚ :=
  xs.insertionSort (· ≤ ·)

/-- Arithmetic mean, `sum(data) / len(data)` (used by `statistics.mean`,
`pandas.Series.mean` and `calculate_z_score_stddev`).  Total function; the
callers below only apply it to nonempty lists. -/
def pyMean (xs : List ℚ) : ℚ :=
  xs.sum / (xs.length : ℚ)

/-- `statistics.median`: sort, take the middle element (odd length) or the
mean of the two middle elements (even length).  Total function with junk
value 0 on the empty list, on which the source raises instead; every use
below is guarded by nonemptiness. -/
def medianNE (xs : List ℚ) : ℚ :=
  let s := sortedQ xs
  if xs.length % 2 = 1 then s.getD (xs.length / 2) 0
  else (s.getD (xs.length / 2 - 1) 0 + s.getD (xs.length / 2) 0) / 2

/-- Apply one aggregation function to the `val` column of one (nonempty)
group, as `pandas.core.groupby.SeriesGroupBy.agg` does. -/
def aggApply : AggFn → List ℚ → ℚ
  | .amin, xs => (sortedQ xs).headD 0
  | .amax, xs => (sortedQ xs).getLastD 0
  | .amean, xs => pyMean xs
  | .amedian, xs => medianNE xs

/-- The sample variance with `n − 1` denominator of a list of values — the
square of the sample standard deviation computed by `statistics.stdev` and by
`pandas.Series.std()` (both use `ddof = 1`). -/
def sampleVarQ (xs : List ℚ) : ℚ :=
  (xs.map (fun x => (x - pyMean xs) ^ 2)).sum / ((xs.length : ℚ) - 1)

/-- The distinct values of the `group_by` column, i.e. the groups that
`df.groupby(group_by)` forms (rows whose cell is NaN are dropped, pandas
`dropna=True` default). -/
def groupKeys (df : DF) (gb : String) : List String :=
  (df.rows.filterMap (fun r => r.get gb)).dedup

/-- Result of `summarize`, i.e. of `(group.mean(), group.std())` over the
per-group aggregated scalars: `empty` is the pair `(NaN, NaN)` (no rows, or
no groups), `one m` is `(m, NaN)` (a single group: `std` with `ddof=1` of one
value is NaN), `many m v` is a defined pair with mean `m` and standard
deviation `√v` — we carry the exact variance `v` because the square root of a
rational is irrational in general. -/
inductive SummarizeOut where
  | empty
  | one (mean : ℚ)
  | many (mean : ℚ) (varSq : ℚ)
deriving DecidableEq

/-- Whether the `std` component of the summarize output is NaN (pandas
`Series.std()` with `ddof=1` is NaN exactly when fewer than two values
enter it). -/
def SummarizeOut.stdIsNan : SummarizeOut → Bool
  | .empty => true
  | .one _ => true
  | .many _ _ => false

/-- `git_perf.py` lines 452-457, `summarize(df, group_by, aggregate_by)`:
return `(np.nan, np.nan)` for an empty frame, else group by `group_by`,
reduce each group's `val` column with the aggregation function, and return
the mean and the sample standard deviation of the per-group scalars. -/
def summarize (df : DF) (gb : String) (agg : AggFn) : SummarizeOut :=
  match (groupKeys df gb).map
      (fun k => aggApply agg
        ((df.rows.filter (fun r => decide (r.get gb = some k))).map Row.val)) with
  | [] => .empty
  | [g] => .one g
  | g1 :: g2 :: gs => .many (pyMean (g1 :: g2 :: gs)) (sampleVarQ (g1 :: g2 :: gs))

/-! ## The audit pipeline -/

/-- `git_perf.py` lines 521-522: the boolean `is_regular = z <= sigma`, where
`z = np.nan_to_num(abs(head_mean - tail_mean) / tail_std)` and the baseline
standard deviation is `√varSq` (`varSq` is the exact sample variance of the
per-group scalars).  The three cases spell out the comparison exactly:
with `varSq = 0` the division yields NaN (difference 0, `z` becomes 0) or
+inf (`z` becomes `MAX_FLOAT`, the `np.nan_to_num` clamp); with `varSq > 0`,
`z = |Δ|/√varSq ≤ sigma` iff `sigma ≥ 0` and `Δ² ≤ sigma²·varSq`, since both
sides are nonnegative.  `isRegularScore_models_auditZ` below proves this
encoding agrees with `auditZ` followed by the IEEE comparison. -/
def isRegularScore (Δ varSq sigma : ℚ) : Bool :=
  if varSq = 0 then
    if Δ = 0 then decide ((0 : ℚ) ≤ sigma) else decide (MAX_FLOAT ≤ sigma)
  else decide (0 ≤ sigma ∧ Δ ^ 2 ≤ sigma ^ 2 * varSq)

/-- How one `audit` invocation terminates: `fatal code` is `sys.exit(code)`
with a diagnostic (also covers an uncaught exception, which likewise gives a
nonzero process status), `defaultAccept` is the plain `return` on an
undefined baseline (the process then exits 0), and `decided a` is
`sys.exit(not accepted)` at line 525. -/
inductive AuditOutcome where
  | fatal (code : ℕ)
  | defaultAccept
  | decided (accepted : Bool)
deriving DecidableEq

/-- The process exit status produced by each audit outcome
(`sys.exit(False) = 0`, `sys.exit(True) = 1`). -/
def auditExit : AuditOutcome → ℕ
  | .fatal code => code
  | .defaultAccept => 0
  | .decided accepted => if accepted then 0 else 1

/-- `git_perf.py` line 477: `df_head = df[df['commit'] == commits[0]]` —
the records of the HEAD commit, before any selector filtering. -/
def headRows (df : DF) (c0 : String) : List Row :=
  df.rows.filter (fun r => decide (r.get "commit" = some c0))

/-- `git_perf.py` line 478: `df_tail = df[df['commit'] != commits[0]]`. -/
def tailRows (df : DF) (c0 : String) : List Row :=
  df.rows.filter (fun r => decide (¬r.get "commit" = some c0))

/-- `git_perf.py` lines 489-491: the pending override trailers that survive
`filter_df(trailers, selector, missing=SILENT)`; `accept_regression` is true
iff this count is positive.  The SILENT policy never raises, so the error
branch is unreachable. -/
def auditTrailerCount (trailers : DF) (selector : List (String × String)) : ℕ :=
  match filter_df trailers selector .SILENT with
  | .ok d => d.rows.length
  | .error _ => 0

/-- `git_perf.py` lines 460-525, `audit`, after `get_df` has produced the
record frame `df` and the commit list: exit fatally if there are no records
at all, or none on the HEAD commit; append `('name', measurement)` to the
selector; filter HEAD (FAIL), TAIL (WARN) and the trailers (SILENT);
summarize both sides; exit fatally if the HEAD scalar is NaN; return
(default accept) if the baseline spread is NaN; otherwise decide
`is_regular or accept_regression` and exit with its negation.
`commits = []` with a nonempty frame would be `commits[0]` raising
`IndexError` — also a fatal nonzero exit, and unreachable from `get_df`
since every record is parsed under some commit header. -/
def auditRun (df : DF) (commits : List String) (trailers : DF)
    (selector : List (String × String)) (measurement : String)
    (sigma : ℚ) (gb : String) (agg : AggFn) : AuditOutcome :=
  if df.rows = [] then .fatal 1
  else
    match commits with
    | [] => .fatal 1
    | c0 :: _ =>
      if headRows df c0 = [] then .fatal 1
      else
        match filter_df ⟨df.cols, headRows df c0⟩
            (selector ++ [("name", measurement)]) .FAIL with
        | .error _ => .fatal 1
        | .ok fH =>
          match filter_df ⟨df.cols, tailRows df c0⟩
              (selector ++ [("name", measurement)]) .WARN with
          | .error _ => .fatal 1
          | .ok fT =>
            match summarize fH gb agg with
            | .empty => .fatal 1
            | .one hm | .many hm _ =>
              match summarize fT gb agg with
              | .empty => .defaultAccept
              | .one _ => .defaultAccept
              | .many tm varSq =>
                .decided (isRegularScore (hm - tm) varSq sigma
                  || decide (0 < auditTrailerCount trailers
                       (selector ++ [("name", measurement)])))

/-- The mean component of a summarize result (`none` is NaN). -/
def SummarizeOut.meanOf : SummarizeOut → Option ℚ
  | .empty => none
  | .one m => some m
  | .many m _ => some m

/-- Coherence of the rational encoding: for any nonnegative standard
deviation `s`, the boolean `isRegularScore (hm - tm) (s²) sigma` agrees with
computing the float score `z = np.nan_to_num(abs(hm - tm) / s)` and comparing
`z <= sigma` in IEEE arithmetic.  This justifies using `isRegularScore` for
the scoring step inside `auditRun`, where the standard deviation is the
irrational `√varSq`. -/
lemma isRegularScore_models_auditZ (hm tm s sigma : ℚ) (hs : 0 ≤ s) :
    isRegularScore (hm - tm) (s ^ 2) sigma
      = (auditZ (.fin hm) (.fin tm) (.fin s)).le (.fin sigma) := by
  have habs : (0 : ℚ) ≤ |hm - tm| := abs_nonneg _
  by_cases hs0 : s = 0
  · subst hs0
    by_cases hd : hm - tm = 0
    · simp [isRegularScore, auditZ, PyFloat.sub, PyFloat.abs, PyFloat.div,
        PyFloat.nanToNum, PyFloat.le, hd]
    · have hpos : 0 < |hm - tm| := abs_pos.mpr hd
      simp [isRegularScore, auditZ, PyFloat.sub, PyFloat.abs, PyFloat.div,
        PyFloat.nanToNum, PyFloat.le, hd, hpos, hpos.ne']
  · have hsp : 0 < s := lt_of_le_of_ne hs (Ne.symm hs0)
    have hs2 : s ^ 2 ≠ 0 := pow_ne_zero _ hs0
    have habs0 : |hm - tm| ≠ 0 ∨ True := Or.inr trivial
    simp only [isRegularScore, auditZ, PyFloat.sub, PyFloat.abs, PyFloat.div,
      PyFloat.nanToNum, PyFloat.le, if_neg hs2, if_neg hs0]
    rw [eq_comm, decide_eq_decide]
    constructor
    · intro h
      have h1 : |hm - tm| ≤ sigma * s := (div_le_iff₀ hsp).mp h
      have h2 : 0 ≤ sigma := le_trans (div_nonneg habs hs) h
      refine ⟨h2, ?_⟩
      nlinarith [sq_abs (hm - tm), habs]
    · rintro ⟨h2, h3⟩
      rw [div_le_iff₀ hsp]
      nlinarith [sq_abs (hm - tm), habs, mul_nonneg h2 hs]

/-- C1: for every audit that reaches the scoring step (records exist on HEAD,
the selector filters succeed, the HEAD scalar is defined and the baseline
spread is defined, i.e. `summarize` of the filtered TAIL yields `many`), the
process exit status is zero iff the deviation score is at most `sigma`
(`isRegularScore`, proven equal to the IEEE comparison of
`z = np.nan_to_num(abs(head_mean - tail_mean)/tail_std)` with `sigma` by
`isRegularScore_models_auditZ`) or at least one pending override trailer
survives the measurement-name-and-selector filter; and nonzero otherwise. -/
theorem audit_decision_rule (df : DF) (c0 : String) (cs : List String)
    (trailers : DF) (selector : List (String × String)) (measurement : String)
    (sigma : ℚ) (gb : String) (agg : AggFn) (fH fT : DF) (hm tm varSq : ℚ)
    (hne : ¬df.rows = [])
    (hhead : ¬headRows df c0 = [])
    (hfH : filter_df ⟨df.cols, headRows df c0⟩
      (selector ++ [("name", measurement)]) .FAIL = .ok fH)
    (hfT : filter_df ⟨df.cols, tailRows df c0⟩
      (selector ++ [("name", measurement)]) .WARN = .ok fT)
    (hhm : (summarize fH gb agg).meanOf = some hm)
    (htm : summarize fT gb agg = .many tm varSq) :
    auditExit (auditRun df (c0 :: cs) trailers selector measurement sigma gb agg) = 0 ↔
      (isRegularScore (hm - tm) varSq sigma = true ∨
        0 < auditTrailerCount trailers (selector ++ [("name", measurement)])) := by
  unfold auditRun
  simp only [if_neg hne, if_neg hhead, hfH, hfT]
  cases hH : summarize fH gb agg with
  | empty =>
    rw [hH] at hhm
    exact absurd hhm (by simp [SummarizeOut.meanOf])
  | one m =>
    rw [hH] at hhm
    simp only [htm, auditExit]
    rw [show m = hm from by simpa [SummarizeOut.meanOf] using hhm]
    cases hreg : isRegularScore (hm - tm) varSq sigma <;>
      cases htr : decide (0 < auditTrailerCount trailers
        (selector ++ [("name", measurement)])) <;>
      simp_all
  | many m v =>
    rw [hH] at hhm
    simp only [htm, auditExit]
    rw [show m = hm from by simpa [SummarizeOut.meanOf] using hhm]
    cases hreg : isRegularScore (hm - tm) varSq sigma <;>
      cases htr : decide (0 < auditTrailerCount trailers
        (selector ++ [("name", measurement)])) <;>
      simp_all

/-- With fewer than two groups, `summarize` returns `empty` or `one _`, i.e.
the pandas `group.std()` component is NaN. -/
lemma summarize_small_baseline (df : DF) (gb : String) (agg : AggFn)
    (h : (groupKeys df gb).length < 2) :
    summarize df gb agg = .empty ∨ ∃ m, summarize df gb agg = .one m := by
  unfold summarize
  rcases hl : (groupKeys df gb).map
      (fun k => aggApply agg
        ((df.rows.filter (fun r => decide (r.get gb = some k))).map Row.val))
    with _ | ⟨g, _ | ⟨g2, gs⟩⟩
  · rw [hl]
    exact Or.inl rfl
  · rw [hl]
    exact Or.inr ⟨g, rfl⟩
  · exfalso
    have := congrArg List.length hl
    simp at this
    omega

/-- C3: for every audit that reaches aggregation (records exist, the HEAD and
TAIL selector filters succeed, the HEAD scalar is defined) in which the
filtered TAIL aggregates to fewer than 2 groups, the baseline spread is NaN
(undefined), and the audit takes the default-accept `return` — outcome
`defaultAccept`, process exit status 0 — which is a different outcome from
the fatal `sys.exit(1)` paths. -/
theorem audit_insufficient_baseline_accepts (df : DF) (c0 : String)
    (cs : List String) (trailers : DF) (selector : List (String × String))
    (measurement : String) (sigma : ℚ) (gb : String) (agg : AggFn) (fH fT : DF)
    (hne : ¬df.rows = [])
    (hhead : ¬headRows df c0 = [])
    (hfH : filter_df ⟨df.cols, headRows df c0⟩
      (selector ++ [("name", measurement)]) .FAIL = .ok fH)
    (hfT : filter_df ⟨df.cols, tailRows df c0⟩
      (selector ++ [("name", measurement)]) .WARN = .ok fT)
    (hhm : ¬summarize fH gb agg = .empty)
    (hgroups : (groupKeys fT gb).length < 2) :
    (summarize fT gb agg).stdIsNan = true ∧
    auditRun df (c0 :: cs) trailers selector measurement sigma gb agg
      = .defaultAccept ∧
    auditExit (auditRun df (c0 :: cs) trailers selector measurement sigma gb agg)
      = 0 ∧
    ¬auditRun df (c0 :: cs) trailers selector measurement sigma gb agg
      = .fatal 1 := by
  have hT := summarize_small_baseline fT gb agg hgroups
  have hrun : auditRun df (c0 :: cs) trailers selector measurement sigma gb agg
      = .defaultAccept := by
    unfold auditRun
    simp only [if_neg hne, if_neg hhead, hfH, hfT]
    cases hH : summarize fH gb agg with
    | empty => exact absurd hH hhm
    | one m =>
      rcases hT with hT | ⟨m2, hT⟩ <;> simp only [hT]
    | many m v =>
      rcases hT with hT | ⟨m2, hT⟩ <;> simp only [hT]
  refine ⟨?_, hrun, ?_, ?_⟩
  · rcases hT with hT | ⟨m2, hT⟩ <;> simp [hT, SummarizeOut.stdIsNan]
  · rw [hrun]; rfl
  · rw [hrun]; intro h; cases h

/-- C4: behaviour of `filter_df` for a selector key absent from the frame's
columns, evaluated on a concrete frame with columns `commit, name` and the
selector `os=linux`.  FAIL raises `ValueError` (fatal, as the claim states
for HEAD) and SILENT skips the constraint (as the claim states for the
trailers), but WARN — the TAIL policy — does not proceed with the remaining
records: after printing the warning the code still evaluates
`df[df['os'] == value]`, which raises a pandas `KeyError` (the `continue` is
missing from the WARN branch), contradicting the claim. -/
theorem filter_df_missing_key_policies :
    filter_df ⟨["commit", "name"], [⟨[("commit", "a"), ("name", "t")], 1⟩]⟩
        [("os", "linux")] .FAIL = .error (.valueError "os") ∧
    filter_df ⟨["commit", "name"], [⟨[("commit", "a"), ("name", "t")], 1⟩]⟩
        [("os", "linux")] .SILENT
      = .ok ⟨["commit", "name"], [⟨[("commit", "a"), ("name", "t")], 1⟩]⟩ ∧
    filter_df ⟨["commit", "name"], [⟨[("commit", "a"), ("name", "t")], 1⟩]⟩
        [("os", "linux")] .WARN = .error (.keyError "os") := by
  refine ⟨?_, ?_, ?_⟩ <;> simp [filter_df]

/-- Witness for `audit_decision_rule`: a three-commit history (HEAD value 10,
baseline values 1 and 3, so mean 2, variance 2), measurement `m`, sigma 4,
no pending trailers; the audit reaches the scoring step and the decision rule
applies. -/
theorem audit_decision_rule_witness :
    auditExit (auditRun
        ⟨["commit", "name"],
          [⟨[("commit", "h"), ("name", "m")], 10⟩,
           ⟨[("commit", "a"), ("name", "m")], 1⟩,
           ⟨[("commit", "b"), ("name", "m")], 3⟩]⟩
        ["h", "a", "b"] ⟨[], []⟩ [] "m" 4 "commit" .amin) = 0 ↔
      (isRegularScore ((10 : ℚ) - 2) 2 4 = true ∨
        0 < auditTrailerCount ⟨[], []⟩ ([] ++ [("name", "m")])) :=
  audit_decision_rule
    ⟨["commit", "name"],
      [⟨[("commit", "h"), ("name", "m")], 10⟩,
       ⟨[("commit", "a"), ("name", "m")], 1⟩,
       ⟨[("commit", "b"), ("name", "m")], 3⟩]⟩
    "h" ["a", "b"] ⟨[], []⟩ [] "m" 4 "commit" .amin
    ⟨["commit", "name"], [⟨[("commit", "h"), ("name", "m")], 10⟩]⟩
    ⟨["commit", "name"],
      [⟨[("commit", "a"), ("name", "m")], 1⟩,
       ⟨[("commit", "b"), ("name", "m")], 3⟩]⟩
    10 2 2
    (by decide) (by decide) (by decide) (by decide) (by decide)
    (by simp only [summarize, groupKeys, Row.get, List.filterMap, List.find?,
          List.filter, List.dedup, List.pwFilter, List.map, aggApply, sortedQ,
          List.insertionSort, List.orderedInsert, pyMean, sampleVarQ, List.sum,
          List.length, List.headD, List.foldr]
        norm_num)

/-- Witness for `audit_insufficient_baseline_accepts`: a two-commit history —
one HEAD record, one baseline record, so the filtered TAIL has a single
group and the spread is undefined; the audit accepts by default. -/
theorem audit_insufficient_baseline_accepts_witness :
    (summarize ⟨["commit", "name"], [⟨[("commit", "a"), ("name", "m")], 1⟩]⟩
        "commit" .amin).stdIsNan = true ∧
    auditRun
        ⟨["commit", "name"],
          [⟨[("commit", "h"), ("name", "m")], 10⟩,
           ⟨[("commit", "a"), ("name", "m")], 1⟩]⟩
        ["h", "a"] ⟨[], []⟩ [] "m" 4 "commit" .amin = .defaultAccept ∧
    auditExit (auditRun
        ⟨["commit", "name"],
          [⟨[("commit", "h"), ("name", "m")], 10⟩,
           ⟨[("commit", "a"), ("name", "m")], 1⟩]⟩
        ["h", "a"] ⟨[], []⟩ [] "m" 4 "commit" .amin) = 0 ∧
    ¬auditRun
        ⟨["commit", "name"],
          [⟨[("commit", "h"), ("name", "m")], 10⟩,
           ⟨[("commit", "a"), ("name", "m")], 1⟩]⟩
        ["h", "a"] ⟨[], []⟩ [] "m" 4 "commit" .amin = .fatal 1 :=
  audit_insufficient_baseline_accepts
    ⟨["commit", "name"],
      [⟨[("commit", "h"), ("name", "m")], 10⟩,
       ⟨[("commit", "a"), ("name", "m")], 1⟩]⟩
    "h" ["a"] ⟨[], []⟩ [] "m" 4 "commit" .amin
    ⟨["commit", "name"], [⟨[("commit", "h"), ("name", "m")], 10⟩]⟩
    ⟨["commit", "name"], [⟨[("commit", "a"), ("name", "m")], 1⟩]⟩
    (by decide) (by decide) (by decide) (by decide) (by decide) (by decide)

/-! ## Dispersion estimators (`evaluate_dispersion_methods.py`) -/

/-- `evaluate_dispersion_methods.py` lines 35-42, `calculate_mad(data)`:
0.0 for empty data, otherwise the median of the absolute deviations from the
median. -/
def calculate_mad (xs : List ℚ) : ℚ :=
  if xs = [] then 0
  else medianNE (xs.map (fun x => |x - medianNE xs|))

/-- `statistics.stdev(data)`: the sample standard deviation with `n − 1`
denominator; it raises `StatisticsError` for fewer than two data points
(modelled as `none`).  We carry its square — the exact sample variance — as
the defined value, since the square root of a rational is irrational in
general; the spread itself is `√` of this value. -/
def stdevVar (xs : List ℚ) : Option ℚ :=
  if xs.length < 2 then none else some (sampleVarQ xs)

/-- `evaluate_dispersion_methods.py` lines 59-70, `calculate_z_score_mad`:
+inf on an empty baseline; otherwise score `|head − median| / MAD`, with the
zero-MAD edge cases (0 on an exact match, +inf on any deviation). -/
def calculate_z_score_mad (head : ℚ) (tail : List ℚ) : PyFloat :=
  if tail = [] then .inf
  else
    if calculate_mad tail = 0 then
      (if head = medianNE tail then .fin 0 else .inf)
    else .fin (|head - medianNE tail| / calculate_mad tail)

/-- C6 counterexample: at the singleton value set `[5]` — size below 2 — the
MAD estimator is fully defined, contrary to the claim that both estimators
are undefined below size 2: its center (the median) is 5, its spread (the
MAD) is 0, and the MAD z-score returns a definite answer (+inf for a
deviating candidate, 0 for a matching one). -/
theorem mad_defined_below_two :
    medianNE [5] = 5 ∧ calculate_mad [5] = 0 ∧
    calculate_z_score_mad 7 [5] = .inf ∧ calculate_z_score_mad 5 [5] = .fin 0 := by
  refine ⟨?_, ?_, ?_, ?_⟩ <;>
    norm_num [medianNE, sortedQ, calculate_mad, calculate_z_score_mad,
      List.insertionSort, List.orderedInsert]

/-- C6 (amended): for every value set of size at least 2, the stddev
estimator's center is the arithmetic mean `sum/n` and its spread is the
sample standard deviation with `n − 1` denominator (stated via its square,
the sample variance), and the MAD estimator's center is the median and its
spread is the median of absolute deviations from the median (the z-score is
`|candidate − median| / MAD` whenever the MAD is nonzero); below size 2 the
stddev estimator is undefined — but the MAD estimator is not (see
`mad_defined_below_two`). -/
theorem dispersion_estimator_formulas (xs ys : List ℚ) (c : ℚ)
    (h2 : 2 ≤ xs.length) (hy : ys.length < 2)
    (hmad : ¬calculate_mad xs = 0) :
    pyMean xs = xs.sum / (xs.length : ℚ) ∧
    stdevVar xs
      = some ((xs.map (fun x => (x - pyMean xs) ^ 2)).sum / ((xs.length : ℚ) - 1)) ∧
    calculate_mad xs = medianNE (xs.map (fun x => |x - medianNE xs|)) ∧
    calculate_z_score_mad c xs = .fin (|c - medianNE xs| / calculate_mad xs) ∧
    stdevVar ys = none := by
  have hne : ¬xs = [] := by
    intro h
    rw [h] at h2
    simp at h2
  refine ⟨rfl, ?_, ?_, ?_, ?_⟩
  · rw [stdevVar, if_neg (by omega)]
    rfl
  · rw [calculate_mad, if_neg hne]
  · rw [calculate_z_score_mad, if_neg hne, if_neg hmad]
  · rw [stdevVar, if_pos hy]

/-- Witness for `dispersion_estimator_formulas` at `xs = [1, 3]`, `ys = [5]`,
candidate 7 (the MAD of `[1, 3]` is 1, nonzero). -/
theorem dispersion_estimator_formulas_witness :
    pyMean [1, 3] = ([1, 3] : List ℚ).sum / (([1, 3] : List ℚ).length : ℚ) ∧
    stdevVar [1, 3]
      = some ((([1, 3] : List ℚ).map (fun x => (x - pyMean [1, 3]) ^ 2)).sum
          / ((([1, 3] : List ℚ).length : ℚ) - 1)) ∧
    calculate_mad [1, 3]
      = medianNE (([1, 3] : List ℚ).map (fun x => |x - medianNE [1, 3]|)) ∧
    calculate_z_score_mad 7 [1, 3]
      = .fin (|(7 : ℚ) - medianNE [1, 3]| / calculate_mad [1, 3]) ∧
    stdevVar [5] = none :=
  dispersion_estimator_formulas [1, 3] [5] 7 (by decide) (by decide)
    (by rw [calculate_mad, if_neg (by simp)]
        norm_num [medianNE, sortedQ, List.insertionSort, List.orderedInsert])

/-! ## The bounded-retry push protocol -/

/-- `git_perf.py` line 17. -/
def MAX_PUSHES : ℕ := 3

/-- Observable behaviour of one `push()` invocation: how many times
`push_to_origin` ran, how many times `pull()` ran, and whether some attempt
succeeded (returned exit code 0). -/
structure PushRun where
  attempts : ℕ
  pulls : ℕ
  delivered : Bool
deriving DecidableEq

/-- `git_perf.py` lines 214-218, the loop
`while counter < MAX_PUSHES and push_to_origin() != 0: pull(); counter += 1`.
`res k` is the exit code of the `k`-th `push_to_origin` call; the fuel
argument is `MAX_PUSHES − counter`, so the guard `counter < MAX_PUSHES` is
exactly `fuel > 0`. -/
def pushLoop (res : ℕ → ℤ) (counter : ℕ) : ℕ → PushRun
  | 0 => ⟨0, 0, false⟩
  | fuel + 1 =>
    if res counter = 0 then ⟨1, 0, true⟩
    else
      let r := pushLoop res (counter + 1) fuel
      ⟨r.attempts + 1, r.pulls + 1, r.delivered⟩

/-- `push()`: run the retry loop from `counter = 0`. -/
def pushSim (res : ℕ → ℤ) : PushRun :=
  pushLoop res 0 MAX_PUSHES

/-- The process exit status of the `push` subcommand: `push()` contains no
`raise` and no `sys.exit` on the push path (`push_to_origin` uses
`subprocess.call`, which returns the exit code instead of raising), so
`main` returns normally and the process exits 0 — regardless of whether any
attempt succeeded. -/
def pushExitCode (res : ℕ → ℤ) : ℕ :=
  (fun _ => 0) (pushSim res)

/-- C7 counterexample: when every push attempt is rejected, the code makes
exactly `MAX_PUSHES = 3` attempts with a pull after each, delivers nothing —
and then returns normally with process exit status 0, signalling no
synchronization failure to its caller, contrary to the claim. -/
theorem push_all_rejected_silent :
    pushSim (fun _ => 1) = ⟨3, 3, false⟩ ∧ pushExitCode (fun _ => 1) = 0 := by
  constructor <;> rfl

/-- C7 (amended): a rejected remote update triggers a pull followed by a
retry, bounded to `MAX_PUSHES = 3` push attempts: every run makes at most 3
attempts, performs exactly one pull per rejected attempt, and stops either
because an attempt succeeded or because all `MAX_PUSHES` attempts were used;
but no run ever signals a failure — the subcommand's exit status is 0 even
when every attempt was rejected. -/
theorem push_bounded_retry (res : ℕ → ℤ) :
    (pushSim res).attempts ≤ MAX_PUSHES ∧
    (pushSim res).pulls
      = (if (pushSim res).delivered then (pushSim res).attempts - 1
         else (pushSim res).attempts) ∧
    ((pushSim res).delivered = true ∨ (pushSim res).attempts = MAX_PUSHES) ∧
    pushExitCode res = 0 := by
  by_cases h0 : res 0 = 0 <;> by_cases h1 : res 1 = 0 <;> by_cases h2 : res 2 = 0 <;>
    simp [pushSim, pushLoop, MAX_PUSHES, pushExitCode, h0, h1, h2]

/-! ## The union merge used by pull -/

/-- `git_perf.py` lines 229-235, `reconcile()`: `git notes merge -s
cat_sort_uniq FETCH_HEAD`.  For each annotated commit the strategy
concatenates the local and the remote note blob line-wise, sorts the lines,
and drops duplicates; `unionMerge a b` is that operation on the two line
lists of one note blob. -/
def unionMerge (a b : List String) : List String :=
  ((a ++ b).insertionSort (· ≤ ·)).dedup

/-- The merge result is sorted. -/
lemma sorted_unionMerge (a b : List String) :
    (unionMerge a b).Sorted (· ≤ ·) :=
  List.Pairwise.sublist (List.dedup_sublist _) (List.sorted_insertionSort _ _)

/-- The merge result has no duplicate lines. -/
lemma nodup_unionMerge (a b : List String) : (unionMerge a b).Nodup :=
  List.nodup_dedup _

/-- A line is in the merge result iff it is in either input: the merge is
exactly a set union, with no loss and no invention. -/
lemma mem_unionMerge (x : String) (a b : List String) :
    x ∈ unionMerge a b ↔ x ∈ a ∨ x ∈ b := by
  unfold unionMerge
  rw [List.mem_dedup, (List.perm_insertionSort _ _).mem_iff]
  exact List.mem_append

/-- Two merge results with the same members are equal: sorted duplicate-free
lists are canonical representatives of their member sets. -/
lemma unionMerge_eq_of_mem_iff (a b c d : List String)
    (h : ∀ x, x ∈ unionMerge a b ↔ x ∈ unionMerge c d) :
    unionMerge a b = unionMerge c d :=
  List.eq_of_perm_of_sorted
    ((List.perm_ext_iff_of_nodup (nodup_unionMerge a b) (nodup_unionMerge c d)).mpr h)
    (sorted_unionMerge a b) (sorted_unionMerge c d)

/-- C8: the line-level union merge used by `pull`/`reconcile` is a
duplicate-eliminating union (membership is exactly membership in either
input), it is commutative (merging A then B equals merging B then A), and it
is idempotent (merging a merged record set into itself yields that same
set). -/
theorem union_merge_comm_idem (a b : List String) :
    (∀ x, x ∈ unionMerge a b ↔ x ∈ a ∨ x ∈ b) ∧
    unionMerge a b = unionMerge b a ∧
    unionMerge (unionMerge a b) (unionMerge a b) = unionMerge a b := by
  refine ⟨fun x => mem_unionMerge x a b, ?_, ?_⟩
  · apply unionMerge_eq_of_mem_iff
    intro x
    rw [mem_unionMerge, mem_unionMerge]
    tauto
  · apply List.eq_of_perm_of_sorted _ (sorted_unionMerge _ _) (sorted_unionMerge a b)
    apply (List.perm_ext_iff_of_nodup (nodup_unionMerge _ _) (nodup_unionMerge a b)).mpr
    intro x
    rw [mem_unionMerge]
    tauto

/-! ## Python string primitives

The parser in `get_df` works line-by-line with `str.strip`, `str.split()`
(whitespace runs), `str.split(',')`, `str.split('=')` and `str.startswith`.
We model them at the character-list level so their algebra is provable.
-/

/-- The characters Python `str.strip()` / `str.split()` treat as whitespace. -/
def pyIsSpace (c : Char) : Bool :=
  c = ' ' || c = '\t' || c = '\n' || c = '\r' || c = '\x0b' || c = '\x0c'

/-- Python `str.split(sep)` for a one-character separator: cut at every
separator occurrence, keeping empty fields (so the result is always
nonempty). -/
def splitCharsOn (p : Char → Bool) : List Char → List (List Char)
  | [] => [[]]
  | c :: rest =>
    if p c then [] :: splitCharsOn p rest
    else
      match splitCharsOn p rest with
      | [] => [[c]]
      | g :: gs => (c :: g) :: gs

/-- Python `str.split()` with no argument: split on whitespace runs and drop
the empty fields.  Leading and trailing whitespace cannot contribute fields,
which is why `line.strip().split()` in the source equals `line.split()`. -/
def pySplitWS (s : String) : List String :=
  ((splitCharsOn pyIsSpace s.toList).filter (fun g => !g.isEmpty)).map
    (fun g => String.mk g)

/-- Python `str.strip()` on a character list: drop whitespace from both
ends. -/
def pyStripL (l : List Char) : List Char :=
  ((l.dropWhile pyIsSpace).reverse.dropWhile pyIsSpace).reverse

/-- Python `line.startswith('--')`. -/
def startsDashDash (s : String) : Bool :=
  match s.toList with
  | '-' :: '-' :: _ => true
  | _ => false

/-- Python `float(s)` acceptance (the `isnumeric` helper of `git_perf.py`
lines 43-49), restricted to plain decimal forms: an optional sign, one or
more digits, optionally a dot followed by digits.  Every string this accepts
is accepted by Python's `float`; the measurement encoder only emits such
forms. -/
def isnumeric (s : String) : Bool :=
  let l :=
    match s.toList with
    | '+' :: t => t
    | '-' :: t => t
    | t => t
  !(l.takeWhile Char.isDigit).isEmpty &&
    ((l.dropWhile Char.isDigit).isEmpty ||
      (match l.dropWhile Char.isDigit with
       | '.' :: fr => fr.all Char.isDigit
       | _ => false))

/-- Python `sep.join(strings)` at the character level. -/
def intercalateChars (sep : Char) : List (List Char) → List Char
  | [] => []
  | [t] => t
  | t :: ts => t ++ sep :: intercalateChars sep ts

/-- `splitCharsOn` always returns at least one field. -/
lemma splitCharsOn_ne_nil (p : Char → Bool) (l : List Char) :
    ¬splitCharsOn p l = [] := by
  cases l with
  | nil => simp [splitCharsOn]
  | cons c rest =>
    simp only [splitCharsOn]
    split
    · simp
    · split <;> simp

/-- Splitting at a leading separator emits an empty field. -/
lemma splitCharsOn_sep (p : Char → Bool) (c : Char) (l : List Char)
    (hc : p c = true) :
    splitCharsOn p (c :: l) = [] :: splitCharsOn p l := by
  simp [splitCharsOn, hc]

/-- A separator-free prefix attaches to the first field of the rest. -/
lemma splitCharsOn_token (p : Char → Bool) (tok l g : List Char)
    (gs : List (List Char)) (h : ∀ c ∈ tok, p c = false)
    (hl : splitCharsOn p l = g :: gs) :
    splitCharsOn p (tok ++ l) = (tok ++ g) :: gs := by
  induction tok with
  | nil => simpa using hl
  | cons c tok ih =>
    have hc : p c = false := h c (by simp)
    have ih2 := ih (fun d hd => h d (by simp [hd]))
    simp only [List.cons_append, splitCharsOn, hc, Bool.false_eq_true,
      if_false, List.append_eq, ih2]

/-- Splitting a separator-joined token list recovers the tokens. -/
lemma splitCharsOn_intercalate (p : Char → Bool) (sep : Char)
    (toks : List (List Char)) (t0 : List Char) (hsep : p sep = true)
    (htoks : ∀ t ∈ t0 :: toks, ∀ c ∈ t, p c = false) :
    splitCharsOn p (intercalateChars sep (t0 :: toks)) = t0 :: toks := by
  induction toks generalizing t0 with
  | nil =>
    have := splitCharsOn_token p t0 [] [] [] (htoks t0 (by simp)) rfl
    simpa [intercalateChars] using this
  | cons t1 ts ih =>
    have ih2 := ih t1 (fun t ht c hc => htoks t (by simp at ht ⊢; tauto) c hc)
    have hrest : splitCharsOn p (sep :: intercalateChars sep (t1 :: ts))
        = [] :: (t1 :: ts) := by
      rw [splitCharsOn_sep p sep _ hsep, ih2]
    have := splitCharsOn_token p t0 (sep :: intercalateChars sep (t1 :: ts))
      [] (t1 :: ts) (htoks t0 (by simp)) hrest
    simpa [intercalateChars] using this

/-! ## The note parser (`get_df`) -/

/-- One parsed measurement record, as assembled by `get_df` (lines 342-348):
the enclosing commit, `nr_commit = len(commits_parsed)` at parse time, the
measurement name, the timestamp and value tokens (stored by the source as
`pd.to_datetime(time)` and `float(val)`; equal tokens denote equal values),
and the raw `key=value` tokens (expanded to columns later). -/
structure RawRecord where
  commit : String
  nrCommit : ℕ
  name : String
  timeTok : String
  valTok : String
  kvs : List String
deriving DecidableEq

/-- The loop state of `get_df`: the current commit (`None` before any
header), whether the most recently parsed header carried the `grafted`
decoration (`commit_is_grafted` is reassigned at every header, so after the
loop it describes the last, i.e. oldest, commit), the commits parsed so far,
and the records collected so far. -/
structure ParseState where
  commit : Option String
  grafted : Bool
  commits : List String
  records : List RawRecord
deriving DecidableEq

/-- The state before the first line. -/
def initState : ParseState := ⟨none, false, [], []⟩

/-- `git_perf.py` lines 311-348, one iteration of the `get_df` line loop.
A line starting with `--` is a header: `line.strip().split(',')` must unpack
as `_, commit, *decorations` (fewer than two fields raises `ValueError`);
`commit_is_grafted = 'grafted' in decorations`.  Otherwise a blank line is
skipped; a record line is whitespace-split into name, time, value and
`key=value` tokens, and the `assert(False)` exits (no enclosing commit,
fewer than three tokens, non-numeric value) are fatal parse errors.  The
error payload is the offending line. -/
def processLine (st : ParseState) (line : String) : Except String ParseState :=
  if startsDashDash line then
    match (splitCharsOn (fun c => c = ',') (pyStripL line.toList)).map
        (fun g => String.mk g) with
    | _ :: c :: ds =>
      .ok ⟨some c, decide ("grafted" ∈ ds), st.commits ++ [c], st.records⟩
    | _ => .error line
  else
    match pySplitWS line with
    | [] => .ok st
    | items =>
      match st.commit with
      | none => .error line
      | some c =>
        match items with
        | name :: timeTok :: valTok :: kvs =>
          if isnumeric valTok then
            .ok ⟨st.commit, st.grafted, st.commits,
              st.records ++ [⟨c, st.commits.length, name, timeTok, valTok, kvs⟩]⟩
          else .error line
        | _ => .error line

/-- The whole `get_df` line loop over the `git log` output. -/
def parseLines (lines : List String) : Except String ParseState :=
  lines.foldlM processLine initState

/-- How `get_df` terminates: successfully with the records and the parsed
commits, with a fatal parse error, or with the shallow-boundary
`sys.exit(1)`. -/
inductive GetDFResult where
  | ok (records : List RawRecord) (commits : List String)
  | parseError (line : String)
  | shallowExit
deriving DecidableEq

/-- `git_perf.py` lines 300-361, `get_df`: parse all lines; then (lines
349-356) if fewer commits than requested were returned **and** the oldest
parsed commit carried the `grafted` decoration, report the shallow-clone
boundary and `sys.exit(1)`. -/
def get_df (lines : List String) (maxCount : ℕ) : GetDFResult :=
  match parseLines lines with
  | .error l => .parseError l
  | .ok st =>
    if st.commits.length < maxCount ∧ st.grafted = true then .shallowExit
    else .ok st.records st.commits

/-- C5: for every history read whose lines parse cleanly, `get_df` fails
with the distinct shallow-boundary exit **iff** fewer commits than the
requested maximum were returned and the oldest returned commit (the last
header parsed, whose `grafted` flag the loop retains) carries the `grafted`
decoration; in particular a short window without the decoration is not
reported this way, and the shallow exit is a different outcome from both
success and a parse error. -/
theorem shallow_boundary_detection (lines : List String) (n : ℕ)
    (st : ParseState) (h : parseLines lines = .ok st) :
    (get_df lines n = .shallowExit
      ↔ (st.commits.length < n ∧ st.grafted = true)) ∧
    ∀ line, ¬(GetDFResult.shallowExit = .parseError line) := by
  constructor
  · unfold get_df
    simp only [h]
    by_cases hc : st.commits.length < n ∧ st.grafted = true
    · rw [if_pos hc]
      simp [hc]
    · rw [if_neg hc]
      constructor
      · intro hh
        cases hh
      · intro hh
        exact absurd hh hc
  · intro line hh
    cases hh

/-- Witness for `shallow_boundary_detection`: a log with two commits (the
request asked for five), the oldest of which is marked `grafted`; the parse
succeeds and the shallow-boundary exit fires. -/
theorem shallow_boundary_detection_witness :
    (get_df ["--,a,", "x 1 2", "--,b,grafted"] 5 = .shallowExit
      ↔ ((["a", "b"] : List String).length < 5 ∧ (true : Bool) = true)) ∧
    ∀ line, ¬(GetDFResult.shallowExit = .parseError line) :=
  shallow_boundary_detection ["--,a,", "x 1 2", "--,b,grafted"] 5
    ⟨some "b", true, ["a", "b"], [⟨"a", 1, "x", "1", "2", []⟩]⟩ (by decide)

/-! ## The measurement encoder (`add`) and the round trip -/

/-- `git_perf.py` lines 197-198, `get_formatted_kvs`:
`' '.join(f"{key}={value}" for (key, value) in key_value)`. -/
def get_formatted_kvs (kvs : List (String × String)) : String :=
  String.mk (intercalateChars ' ' (kvs.map (fun p => (p.1 ++ "=" ++ p.2).toList)))

/-- `git_perf.py` line 202, the note line written by `add`:
`f"{measurement} {time.time()} {value} {get_formatted_kvs(key_value)}"`.
The timestamp and value are taken as their already-rendered tokens (the
source renders `time.time()` and keeps `value` as the string the user
passed).  String concatenation concatenates character data, so this is the
same string the f-string produces. -/
def addLine (measurement : String) (kvs : List (String × String))
    (timeTok valTok : String) : String :=
  String.mk (measurement.toList ++ ' ' :: timeTok.toList ++ ' ' :: valTok.toList
    ++ ' ' :: (get_formatted_kvs kvs).toList)

/-- The history block header emitted by `git log --pretty=--,%H,%D` for a
commit with hash `c` and no decorations: `--,<hash>,` (the `%D` field is
empty, leaving a trailing comma). -/
def headerLine (c : String) : String :=
  String.mk ('-' :: ('-' :: ',' :: c.toList) ++ [','])

/-- The tag pairs `expand_kvs` recovers from a record's `key=value` tokens:
each token is split at `'='`; a token that does not split into exactly two
parts makes the frame-wide expansion bail out (`none`). -/
def recordTags (kvTokens : List String) : Option (List (String × String)) :=
  kvTokens.mapM (fun t =>
    match (splitCharsOn (fun c => c = '=') t.toList).map (fun g => String.mk g) with
    | [k, v] => some (k, v)
    | _ => none)

/-- No character of the string is Python whitespace. -/
def wsFree (s : String) : Bool :=
  s.toList.all (fun c => !pyIsSpace c)

/-- No character of the string is `'='`. -/
def eqFree (s : String) : Bool :=
  s.toList.all (fun c => !(c = '='))

/-- No character of the string is `','`. -/
def commaFree (s : String) : Bool :=
  s.toList.all (fun c => !(c = ','))

/-- C9 counterexample: the record with name `--x`, timestamp token `1`,
value token `2` and no tags is a valid measurement record in the claim's
sense (whitespace-free name, numeric timestamp and value), but encoding it
with `add` and parsing the result back fails: the encoded line starts with
`--`, so `get_df` takes it for a history header, and
`line.strip().split(',')` yields a single field, which fails the
`_, commit, *decorations` unpacking with a `ValueError` — the round trip
does not return the record. -/
theorem roundtrip_fails_for_dashdash_name :
    wsFree "--x" = true ∧ isnumeric "1" = true ∧ isnumeric "2" = true ∧
    get_df [headerLine "c", addLine "--x" [] "1" "2"] 1
      = .parseError (addLine "--x" [] "1" "2") ∧
    ¬get_df [headerLine "c", addLine "--x" [] "1" "2"] 1
      = .ok [⟨"c", 1, "--x", "1", "2", []⟩] ["c"] := by
  refine ⟨by decide, by decide, by decide, by decide, by decide⟩

/-- The characters of an encoded `key=value` token. -/
lemma toList_kvToken (a b : String) :
    (a ++ "=" ++ b).toList = a.toList ++ '=' :: b.toList := by
  show (a ++ "=" ++ b).data = a.data ++ '=' :: b.data
  rw [String.data_append, String.data_append]
  simp

/-- `str.strip()` does nothing when both ends are not whitespace. -/
lemma pyStripL_sandwich (x y : Char) (l : List Char)
    (hx : pyIsSpace x = false) (hy : pyIsSpace y = false) :
    pyStripL (x :: l ++ [y]) = x :: l ++ [y] := by
  unfold pyStripL
  rw [List.cons_append, List.dropWhile_cons_of_neg (by simp [hx])]
  rw [show (x :: (l ++ [y])).reverse = y :: (l.reverse ++ [x]) by simp]
  rw [List.dropWhile_cons_of_neg (by simp [hy])]
  simp

/-- Splitting a string with no `'='` characters yields one field. -/
lemma splitCharsOn_eqFree (b : String) (hb : eqFree b = true) :
    splitCharsOn (fun ch => ch = '=') b.toList = [b.toList] := by
  have h : ∀ ch ∈ b.toList, (decide (ch = '=')) = false := by
    simp only [eqFree, List.all_eq_true] at hb
    intro ch hch
    simpa using hb ch hch
  have := splitCharsOn_token (fun ch => ch = '=') b.toList [] [] [] h rfl
  simpa using this

/-- Splitting an encoded `key=value` token at `'='` recovers the pair. -/
lemma splitEq_kvToken (a b : String) (ha : eqFree a = true)
    (hb : eqFree b = true) :
    (splitCharsOn (fun ch => ch = '=') (a ++ "=" ++ b).toList).map
      (fun g => String.mk g) = [a, b] := by
  rw [toList_kvToken a b]
  have hstep : splitCharsOn (fun ch => ch = '=') ('=' :: b.toList)
      = [] :: [b.toList] := by
    rw [splitCharsOn_sep _ _ _ (by simp), splitCharsOn_eqFree b hb]
  have h : ∀ ch ∈ a.toList, (decide (ch = '=')) = false := by
    simp only [eqFree, List.all_eq_true] at ha
    intro ch hch
    simpa using ha ch hch
  rw [splitCharsOn_token (fun ch => ch = '=') a.toList ('=' :: b.toList)
    [] [b.toList] h hstep]
  simp

/-- Parsing the encoded tag tokens back recovers the original tag list. -/
lemma recordTags_encoded (kvs : List (String × String))
    (hkv : ∀ p ∈ kvs, eqFree p.1 = true ∧ eqFree p.2 = true) :
    recordTags (kvs.map (fun p => p.1 ++ "=" ++ p.2)) = some kvs := by
  induction kvs with
  | nil => rfl
  | cons p ps ih =>
    obtain ⟨h1, h2⟩ := hkv p (by simp)
    have ih2 := ih (fun q hq => hkv q (by simp [hq]))
    simp only [recordTags, List.map_cons, List.mapM_cons] at ih2 ⊢
    rw [splitEq_kvToken p.1 p.2 h1 h2]
    simp only [Option.pure_def, Option.bind_eq_bind, Option.some_bind]
    rw [show (ps.map (fun p => p.1 ++ "=" ++ p.2)).mapM (fun t =>
        match (splitCharsOn (fun c => c = '=') t.toList).map
          (fun g => String.mk g) with
        | [k, v] => some (k, v)
        | _ => none) = some ps from ih2]
    rfl

/-- Unpack `wsFree` to a per-character fact. -/
lemma wsFree_chars (s : String) (h : wsFree s = true) :
    ∀ ch ∈ s.toList, pyIsSpace ch = false := by
  simp only [wsFree, List.all_eq_true] at h
  intro ch hch
  simpa using h ch hch

/-- A nonempty string has a nonempty character list. -/
lemma toList_ne_nil (s : String) (h : ¬s = "") : ¬s.toList = [] :=
  fun hh => h (String.ext (by simpa using hh))

/-- A whitespace-free token followed by a space attaches as one more field. -/
lemma splitWS_token_sep (tok l g : List Char) (gs : List (List Char))
    (htok : ∀ ch ∈ tok, pyIsSpace ch = false)
    (hl : splitCharsOn pyIsSpace l = g :: gs) :
    splitCharsOn pyIsSpace (tok ++ ' ' :: l) = tok :: g :: gs := by
  have hsep : splitCharsOn pyIsSpace (' ' :: l) = [] :: g :: gs := by
    rw [splitCharsOn_sep _ _ _ (by decide), hl]
  have := splitCharsOn_token pyIsSpace tok (' ' :: l) [] (g :: gs) htok hsep
  simpa using this

/-- A body line never looks like a `--` header when the measurement name
does not itself start with `--`. -/
lemma startsDashDash_body (name : String) (rest : List Char)
    (hn0 : ¬name = "") (hn2 : startsDashDash name = false) :
    startsDashDash (String.mk (name.toList ++ ' ' :: rest)) = false := by
  unfold startsDashDash at hn2 ⊢
  cases hl : name.toList with
  | nil => exact absurd hl (toList_ne_nil name hn0)
  | cons a t =>
    rw [hl] at hn2
    show (match a :: (t ++ ' ' :: rest) with
      | '-' :: '-' :: _ => true
      | _ => false) = false
    cases t with
    | nil =>
      split

      · next heq => simp at heq
      · rfl
    | cons b t2 =>
      split
      · next x y heq =>
        obtain ⟨rfl, rfl, -⟩ : a = '-' ∧ b = '-' ∧ t2 ++ ' ' :: rest = y := by
          injection heq with h1 h2
          injection h2 with h3 h4
          exact ⟨h1, h3, h4⟩
        simp at hn2
      · rfl

/-- Parsing the `--,<hash>,` header of an undecorated commit: the current
commit becomes `c`, the grafted flag is false, and `c` is appended to the
parsed commits. -/
lemma processLine_header (st : ParseState) (c : String)
    (hc2 : commaFree c = true) :
    processLine st (headerLine c)
      = .ok ⟨some c, false, st.commits ++ [c], st.records⟩ := by
  have hchars : (headerLine c).toList = '-' :: ('-' :: ',' :: c.toList) ++ [','] :=
    rfl
  have hdd : startsDashDash (headerLine c) = true := rfl
  have hstrip : pyStripL (headerLine c).toList
      = '-' :: ('-' :: ',' :: c.toList) ++ [','] := by
    rw [hchars]
    exact pyStripL_sandwich '-' ',' ('-' :: ',' :: c.toList) rfl rfl
  have hcfree : ∀ ch ∈ c.toList, (decide (ch = ',')) = false := by
    simp only [commaFree, List.all_eq_true] at hc2
    intro ch hch
    simpa using hc2 ch hch
  have h1 : splitCharsOn (fun ch => ch = ',') (c.toList ++ [','])
      = (c.toList ++ []) :: [[]] := by
    refine splitCharsOn_token _ c.toList [','] [] [[]] hcfree ?_
    rw [splitCharsOn_sep _ _ _ (by decide)]
    rfl
  have h2 : splitCharsOn (fun ch => ch = ',')
        ('-' :: ('-' :: ',' :: c.toList) ++ [','])
      = (['-', '-'] ++ []) :: (c.toList ++ []) :: [[]] := by
    have hsep : splitCharsOn (fun ch => ch = ',') (',' :: (c.toList ++ [',']))
        = [] :: (c.toList ++ []) :: [[]] := by
      rw [splitCharsOn_sep _ _ _ (by decide), h1]
    have := splitCharsOn_token (fun ch => ch = ',') ['-', '-']
      (',' :: (c.toList ++ [','])) [] ((c.toList ++ []) :: [[]])
      (by decide) hsep
    simpa using this
  unfold processLine
  rw [if_pos hdd, hstrip, h2]
  simp only [List.append_nil, List.map_cons, List.map_nil]
  simp [show String.mk c.toList = c from rfl,
    show String.mk ([] : List Char) = "" from rfl]

/-- Whitespace-splitting the encoded measurement line recovers exactly the
name, timestamp, value and `key=value` tokens. -/
lemma pySplitWS_addLine (name timeTok valTok : String)
    (kvs : List (String × String))
    (hn0 : ¬name = "") (hn1 : wsFree name = true)
    (ht0 : ¬timeTok = "") (ht1 : wsFree timeTok = true)
    (hv0 : ¬valTok = "") (hv1 : wsFree valTok = true)
    (hkv : ∀ p ∈ kvs, wsFree p.1 = true ∧ eqFree p.1 = true ∧
      wsFree p.2 = true ∧ eqFree p.2 = true) :
    pySplitWS (addLine name kvs timeTok valTok)
      = name :: timeTok :: valTok :: kvs.map (fun p => p.1 ++ "=" ++ p.2) := by
  have hchars : (addLine name kvs timeTok valTok).toList
      = name.toList ++ ' ' :: (timeTok.toList ++ ' ' :: (valTok.toList ++ ' ' ::
          (get_formatted_kvs kvs).toList)) := by
    show (name.toList ++ ' ' :: timeTok.toList ++ ' ' :: valTok.toList ++ ' ' ::
        (get_formatted_kvs kvs).toList) = _
    simp [List.append_assoc]
  cases kvs with
  | nil =>
    have hic : (get_formatted_kvs ([] : List (String × String))).toList = [] := rfl
    have e1 : splitCharsOn pyIsSpace (valTok.toList ++ ' ' ::
        (get_formatted_kvs ([] : List (String × String))).toList)
        = valTok.toList :: [] :: [] := by
      rw [hic]
      exact splitWS_token_sep valTok.toList [] [] [] (wsFree_chars valTok hv1) rfl
    have e2 := splitWS_token_sep timeTok.toList _ valTok.toList ([] :: [])
      (wsFree_chars timeTok ht1) e1
    have e3 := splitWS_token_sep name.toList _ timeTok.toList
      (valTok.toList :: [] :: []) (wsFree_chars name hn1) e2
    unfold pySplitWS
    rw [hchars, e3]
    simp only [List.filter, List.map]
    rw [show (name.toList.isEmpty) = false by
        simpa [List.isEmpty_iff] using toList_ne_nil name hn0,
      show (timeTok.toList.isEmpty) = false by
        simpa [List.isEmpty_iff] using toList_ne_nil timeTok ht0,
      show (valTok.toList.isEmpty) = false by
        simpa [List.isEmpty_iff] using toList_ne_nil valTok hv0]
    simp [show ∀ s : String, String.mk s.toList = s from fun _ => rfl]
  | cons q qs =>
    have hkvchars : ∀ p ∈ (q :: qs), ∀ ch ∈ (p.1 ++ "=" ++ p.2).toList,
        pyIsSpace ch = false := by
      intro p hp ch hch
      obtain ⟨w1, e1, w2, e2⟩ := hkv p hp
      rw [toList_kvToken] at hch
      rcases List.mem_append.mp hch with h | h
      · exact wsFree_chars p.1 w1 ch h
      · rcases List.mem_cons.mp h with h | h
        · rw [h]
          rfl
        · exact wsFree_chars p.2 w2 ch h
    have hkvne : ∀ p : String × String,
        ((p.1 ++ "=" ++ p.2).toList).isEmpty = false := by
      intro p
      rw [toList_kvToken]
      cases hpl : p.1.toList <;> simp
    have hic : (get_formatted_kvs (q :: qs)).toList
        = intercalateChars ' '
            (((q.1 ++ "=" ++ q.2).toList) :: qs.map (fun p => (p.1 ++ "=" ++ p.2).toList)) :=
      rfl
    have hsplit_ic : splitCharsOn pyIsSpace (get_formatted_kvs (q :: qs)).toList
        = ((q.1 ++ "=" ++ q.2).toList) :: qs.map (fun p => (p.1 ++ "=" ++ p.2).toList) := by
      rw [hic]
      refine splitCharsOn_intercalate pyIsSpace ' '
        (qs.map (fun p => (p.1 ++ "=" ++ p.2).toList)) ((q.1 ++ "=" ++ q.2).toList)
        rfl ?_
      intro t ht ch hch
      rcases List.mem_cons.mp ht with h | h
      · rw [h] at hch
        exact hkvchars q (by simp) ch hch
      · obtain ⟨p, hp, rfl⟩ := List.mem_map.mp h
        exact hkvchars p (by simp [hp]) ch hch
    have e1 := splitWS_token_sep valTok.toList (get_formatted_kvs (q :: qs)).toList
      ((q.1 ++ "=" ++ q.2).toList) (qs.map (fun p => (p.1 ++ "=" ++ p.2).toList))
      (wsFree_chars valTok hv1) hsplit_ic
    have e2 := splitWS_token_sep timeTok.toList _ valTok.toList
      (((q.1 ++ "=" ++ q.2).toList) :: qs.map (fun p => (p.1 ++ "=" ++ p.2).toList))
      (wsFree_chars timeTok ht1) e1
    have e3 := splitWS_token_sep name.toList _ timeTok.toList
      (valTok.toList :: ((q.1 ++ "=" ++ q.2).toList) ::
        qs.map (fun p => (p.1 ++ "=" ++ p.2).toList))
      (wsFree_chars name hn1) e2
    unfold pySplitWS
    rw [hchars, e3]
    have hfilter : ∀ l : List (List Char), (∀ t ∈ l, t.isEmpty = false) →
        l.filter (fun g => !g.isEmpty) = l := by
      intro l hl
      refine List.filter_eq_self.mpr ?_
      intro t ht
      simp [hl t ht]
    rw [show (name.toList :: timeTok.toList :: valTok.toList ::
          ((q.1 ++ "=" ++ q.2).toList) ::
          qs.map (fun p => (p.1 ++ "=" ++ p.2).toList)).filter (fun g => !g.isEmpty)
        = name.toList :: timeTok.toList :: valTok.toList ::
          ((q.1 ++ "=" ++ q.2).toList) ::
          qs.map (fun p => (p.1 ++ "=" ++ p.2).toList) from
      hfilter _ (by
        intro t ht
        rcases List.mem_cons.mp ht with h | ht2
        · rw [h]
          simpa [List.isEmpty_iff] using toList_ne_nil name hn0
        rcases List.mem_cons.mp ht2 with h | ht3
        · rw [h]
          simpa [List.isEmpty_iff] using toList_ne_nil timeTok ht0
        rcases List.mem_cons.mp ht3 with h | ht4
        · rw [h]
          simpa [List.isEmpty_iff] using toList_ne_nil valTok hv0
        rcases List.mem_cons.mp ht4 with h | ht5
        · rw [h]
          exact hkvne q
        · obtain ⟨p, hp, rfl⟩ := List.mem_map.mp ht5
          exact hkvne p)]
    simp only [List.map_cons, List.map_map]
    rfl

/-- C9 (amended): encoding a valid measurement record — whitespace-free name
that does not begin with the header marker `--`, numeric timestamp and value
tokens, whitespace-free `key=value` tag pairs whose keys and values contain
no `=` — into a log line with `add` and parsing that line back with the
`get_df` record parser (under its commit header) yields an equal record:
the same name, the same timestamp and value tokens (hence the same numeric
values), and tag tokens that split back into exactly the original tag list
(hence the same tag map).  Without the `--` restriction the claim fails, see
`roundtrip_fails_for_dashdash_name`. -/
theorem add_parse_roundtrip (c name timeTok valTok : String)
    (kvs : List (String × String)) (m : ℕ)
    (hc2 : commaFree c = true)
    (hn0 : ¬name = "") (hn1 : wsFree name = true)
    (hn2 : startsDashDash name = false)
    (hts : isnumeric timeTok = true) (ht0 : ¬timeTok = "")
    (ht1 : wsFree timeTok = true)
    (hvs : isnumeric valTok = true) (hv0 : ¬valTok = "")
    (hv1 : wsFree valTok = true)
    (hkv : ∀ p ∈ kvs, wsFree p.1 = true ∧ eqFree p.1 = true ∧
      wsFree p.2 = true ∧ eqFree p.2 = true) :
    get_df [headerLine c, addLine name kvs timeTok valTok] m
      = .ok [⟨c, 1, name, timeTok, valTok,
          kvs.map (fun p => p.1 ++ "=" ++ p.2)⟩] [c] ∧
    recordTags (kvs.map (fun p => p.1 ++ "=" ++ p.2)) = some kvs := by
  have hts2 := hts
  constructor
  · have hstep1 : processLine initState (headerLine c)
        = .ok ⟨some c, false, [c], []⟩ := by
      have := processLine_header initState c hc2
      simpa [initState] using this
    have haddform : addLine name kvs timeTok valTok
        = String.mk (name.toList ++ ' ' :: (timeTok.toList ++ ' ' ::
            (valTok.toList ++ ' ' :: (get_formatted_kvs kvs).toList))) := by
      unfold addLine
      congr 1
      simp [List.append_assoc]
    have hsdd : startsDashDash (addLine name kvs timeTok valTok) = false := by
      rw [haddform]
      exact startsDashDash_body name _ hn0 hn2
    have hsplit := pySplitWS_addLine name timeTok valTok kvs
      hn0 hn1 ht0 ht1 hv0 hv1 hkv
    have hbody : processLine ⟨some c, false, [c], []⟩
        (addLine name kvs timeTok valTok)
        = .ok ⟨some c, false, [c],
            [⟨c, 1, name, timeTok, valTok,
              kvs.map (fun p => p.1 ++ "=" ++ p.2)⟩]⟩ := by
      unfold processLine
      rw [if_neg (by simp [hsdd])]
      simp only [hsplit, hvs, if_true]
      rfl
    show get_df [headerLine c, addLine name kvs timeTok valTok] m = _
    unfold get_df parseLines
    simp only [List.foldlM, hstep1, hbody, bind, Except.bind, pure, Except.pure]
    simp
  · exact recordTags_encoded kvs
      (fun p hp => ⟨(hkv p hp).2.1, (hkv p hp).2.2.2⟩)

/-- Witness for `add_parse_roundtrip`: the record
`timer 1700000000.25 42 os=linux arch=x86` under commit `abc` round-trips. -/
theorem add_parse_roundtrip_witness :
    get_df [headerLine "abc",
        addLine "timer" [("os", "linux"), ("arch", "x86")] "1700000000.25" "42"] 1
      = .ok [⟨"abc", 1, "timer", "1700000000.25", "42",
          [("os", "linux"), ("arch", "x86")].map (fun p => p.1 ++ "=" ++ p.2)⟩]
          ["abc"] ∧
    recordTags ([("os", "linux"), ("arch", "x86")].map (fun p => p.1 ++ "=" ++ p.2))
      = some [("os", "linux"), ("arch", "x86")] :=
  add_parse_roundtrip "abc" "timer" "1700000000.25" "42"
    [("os", "linux"), ("arch", "x86")] 1
    (by decide) (by decide) (by decide) (by decide) (by decide) (by decide)
    (by decide) (by decide) (by decide) (by decide) (by decide)

/-- C10: for every audit invocation whose parsed history window contains no
measurement records at all, or whose HEAD commit carries no records before
any selector filtering, the audit terminates with the fatal exit status 1
("No performance measurements found" / "No performance measurements on HEAD
commit"); in particular the default-accept outcome for an undefined baseline
is never produced when no records exist. -/
theorem audit_fatal_no_records (df : DF) (commits : List String) (trailers : DF)
    (selector : List (String × String)) (measurement : String) (sigma : ℚ)
    (gb : String) (agg : AggFn) :
    (df.rows = [] →
      auditRun df commits trailers selector measurement sigma gb agg = .fatal 1 ∧
      auditExit (auditRun df commits trailers selector measurement sigma gb agg)
        = 1 ∧
      ¬auditRun df commits trailers selector measurement sigma gb agg
        = .defaultAccept) ∧
    (∀ c0 cs, commits = c0 :: cs → headRows df c0 = [] →
      auditRun df commits trailers selector measurement sigma gb agg
        = .fatal 1) := by
  constructor
  · intro h
    unfold auditRun
    rw [if_pos h]
    refine ⟨rfl, rfl, ?_⟩
    intro hh
    cases hh
  · intro c0 cs hc hh
    subst hc
    by_cases hr : df.rows = []
    · unfold auditRun
      rw [if_pos hr]
    · unfold auditRun
      rw [if_neg hr]
      simp only [hh, if_pos]

/-- Witness for `audit_fatal_no_records`: an empty record frame exits
fatally (and not via default accept), and a nonempty frame whose HEAD commit
`h` carries no records also exits fatally. -/
theorem audit_fatal_no_records_witness :
    auditRun ⟨[], []⟩ [] ⟨[], []⟩ [] "m" 4 "commit" .amin = .fatal 1 ∧
    ¬auditRun ⟨[], []⟩ [] ⟨[], []⟩ [] "m" 4 "commit" .amin = .defaultAccept ∧
    auditRun ⟨["commit", "name"], [⟨[("commit", "a"), ("name", "m")], 1⟩]⟩
      ["h"] ⟨[], []⟩ [] "m" 4 "commit" .amin = .fatal 1 :=
  ⟨((audit_fatal_no_records ⟨[], []⟩ [] ⟨[], []⟩ [] "m" 4 "commit" .amin).1
      rfl).1,
   ((audit_fatal_no_records ⟨[], []⟩ [] ⟨[], []⟩ [] "m" 4 "commit" .amin).1
      rfl).2.2,
   (audit_fatal_no_records
      ⟨["commit", "name"], [⟨[("commit", "a"), ("name", "m")], 1⟩]⟩
      ["h"] ⟨[], []⟩ [] "m" 4 "commit" .amin).2 "h" [] rfl (by decide)⟩

end GitPerf
